import Mathlib

/-!
Verification of the file-filtering and environment-scanning core of the
`universal-github-mcp` server (`enhanced_mcp_server.py`).

The dispatch layer (`handle_call_tool`, the six tool handlers, the dry-run
loop of `test_file_filtering`) is embedded from the source file.  The filter
engine and environment scanner themselves live in the external collaborator
module `enhanced_github_uploader`, which is not part of the provided source;
those parts are modelled from the specification and marked as such in their
doc comments.  Strings are handled through their underlying character lists
so that every definition evaluates by kernel reduction.
-/

namespace GithubMcp

/-- Modelled from the spec: kind of a filter rule (`should_exclude_file`
rule sets live in the absent `enhanced_github_uploader` module); a rule
either excludes matching paths or re-includes them. -/
inductive RuleKind where
  | exclude : RuleKind
  | retain : RuleKind
deriving DecidableEq, Repr

/-- Modelled from the spec: a filter rule is a glob-style pattern together
with its kind.  A pattern ending in `/` denotes a directory-name match. -/
structure FilterRule where
  pattern : String
  kind : RuleKind
deriving DecidableEq, Repr

/-- Suffixes of a character list obtained by consuming a (possibly empty)
run of characters none of which is the separator `/`; these are exactly the
remainders a `*` wildcard may leave behind. -/
def starSuffixes : List Char → List (List Char)
  | [] => [[]]
  | c :: cs => (c :: cs) :: (if c = '/' then [] else starSuffixes cs)

/-- Modelled from the spec: glob matching where `*` matches any run of
characters except the path separator `/`; all other characters are literal. -/
def globMatch : List Char → List Char → Bool
  | [], s => s.isEmpty
  | '*' :: ps, s => (starSuffixes s).any (fun t => globMatch ps t)
  | p :: ps, s =>
      match s with
      | [] => false
      | c :: cs => p == c && globMatch ps cs

/-- Splits a character list on a separator character; used both for path
segmentation (separator `/`) and for splitting file content into lines
(separator newline). -/
def splitCharOn (sep : Char) : List Char → List (List Char)
  | [] => [[]]
  | c :: cs =>
      if c = sep then [] :: splitCharOn sep cs
      else
        match splitCharOn sep cs with
        | [] => [[c]]
        | s :: rest => (c :: s) :: rest

/-- Modelled from the spec: whether a rule's pattern matches a (root-relative,
forward-slash normalized) path.  A pattern ending in `/` matches when some
path segment equals the literal before the slash; any other pattern is
matched as a glob against the whole relative path. -/
def ruleMatches (r : FilterRule) (path : String) : Bool :=
  match r.pattern.data.getLast? with
  | some c =>
      if c = '/' then (splitCharOn '/' path.data).contains r.pattern.data.dropLast
      else globMatch r.pattern.data path.data
  | none => globMatch r.pattern.data path.data

/-- Modelled from the spec: `should_exclude_file` of the absent uploader
module.  The ordered rule list is scanned sequentially; each matching rule
overwrites the running decision, so the last matching rule wins, and a path
matching no rule is included (result `false`). -/
def shouldExclude (rules : List FilterRule) (path : String) : Bool :=
  rules.foldl (fun acc r => if ruleMatches r path then r.kind == RuleKind.exclude else acc) false

/-- Specification-side restatement used for the refinement comparison: the
last rule, by insertion order, whose pattern matches the path. -/
def lastMatchingRule (path : String) : List FilterRule → Option FilterRule
  | [] => none
  | r :: rs =>
      match lastMatchingRule path rs with
      | some r' => some r'
      | none => if ruleMatches r path then some r else none

/-- Modelled from the spec: `add_custom_filter` of the absent uploader
module.  Appends a rule and reports success, except that an empty pattern is
rejected with `false` and no mutation. -/
def addRule (rules : List FilterRule) (pattern : String) (kind : RuleKind) :
    Bool × List FilterRule :=
  if pattern = "" then (false, rules) else (true, rules ++ [⟨pattern, kind⟩])

/-- Modelled from the spec: `list_filtering_rules` returns the current rule
sequence in insertion order. -/
def listRules (rules : List FilterRule) : List FilterRule := rules

/-- Embeds line 293 of `enhanced_mcp_server.py`:
`str(file_path.relative_to(local_path)).replace('\\', '/')` — the walked
file's root-relative path with every backslash replaced by a forward
slash.  Since the needle is a single character, per-character replacement
coincides with Python's substring replacement. -/
def normalizePath (s : String) : String := ⟨s.data.map (fun c => if c = '\\' then '/' else c)⟩

/-- Result record built by `test_file_filtering` (lines 304-313).  The
`more_excluded` and `more_included` fields use truncated subtraction, which
coincides with Python's `max(0, len - 20)`. -/
structure DryRunResult where
  total_files : Nat
  included_files : Nat
  excluded_files : Nat
  exclusion_rate : ℚ
  excluded_list : List String
  included_list : List String
  more_excluded : Nat
  more_included : Nat
deriving DecidableEq, Repr

/-- Executable floor on rationals, the formula of `Rat.floor`. -/
def ratFloor (q : ℚ) : ℤ := q.num / (q.den : ℤ)

/-- Executable round-to-nearest on rationals. -/
def ratRound (q : ℚ) : ℤ := ratFloor (q + 1 / 2)

/-- Rounding to one decimal place, the rational-number model of Python's
`round(x, 1)` on line 308. -/
def roundTo1 (q : ℚ) : ℚ := (ratRound (q * 10) : ℤ) / 10

/-- The classification loop of `test_file_filtering` (lines 290-299): walks
the file list in order, counts the files and partitions their normalized
relative paths into the excluded and included lists.  The walk is modelled
as the list of root-relative path strings of the regular files found by
`rglob`, and the absent `should_exclude_file` as the predicate `ex` on the
walked path. -/
def dryRunFold (ex : String → Bool) : List String → Nat × List String × List String
  | [] => (0, [], [])
  | f :: fs =>
      let r := dryRunFold ex fs
      if ex f then (r.1 + 1, normalizePath f :: r.2.1, r.2.2)
      else (r.1 + 1, r.2.1, normalizePath f :: r.2.2)

/-- Embeds `test_file_filtering` (lines 285-313): classify every walked file,
compute `included_files = total - excluded`, guard the exclusion rate against
`total_files = 0`, round it to one decimal, and return only the first 20
entries of each partition together with the counts of the omitted rest. -/
def dryRun (ex : String → Bool) (files : List String) : DryRunResult :=
  let t := dryRunFold ex files
  let total := t.1
  let exl := t.2.1
  let inl := t.2.2
  let excluded := exl.length
  let rate : ℚ := if total > 0 then (excluded : ℚ) / (total : ℚ) * 100 else 0
  { total_files := total
    included_files := total - excluded
    excluded_files := excluded
    exclusion_rate := roundTo1 rate
    excluded_list := exl.take 20
    included_list := inl.take 20
    more_excluded := exl.length - 20
    more_included := inl.length - 20 }

theorem ratFloor_eq_floor (q : ℚ) : ratFloor q = ⌊q⌋ := Rat.floor_def.symm

theorem ratRound_eq_round (q : ℚ) : ratRound q = round q := by
  rw [ratRound, ratFloor_eq_floor, round_eq]

/-- Bridge from the executable rounding used in `dryRun` to Mathlib's
round-to-nearest. -/
theorem roundTo1_eq_round (q : ℚ) : roundTo1 q = (round (q * 10) : ℤ) / 10 := by
  rw [roundTo1, ratRound_eq_round]

theorem roundTo1_zero : roundTo1 0 = 0 := by
  rw [roundTo1_eq_round]
  norm_num

/-- Trims leading and trailing whitespace from a character list. -/
def trimChars (l : List Char) : List Char :=
  ((l.dropWhile Char.isWhitespace).reverse.dropWhile Char.isWhitespace).reverse

/-- Splits a character list at its first `=`, returning the parts before and
after it, or `none` when no `=` occurs. -/
def splitFirstEq : List Char → Option (List Char × List Char)
  | [] => none
  | c :: cs =>
      if c = '=' then some ([], cs)
      else
        match splitFirstEq cs with
        | none => none
        | some (n, v) => some (c :: n, v)

/-- Strips exactly one layer of matching single or double quotes from a
value, when the value is wrapped in them. -/
def stripQuotes (v : List Char) : List Char :=
  match v with
  | [] => []
  | [c] => [c]
  | c :: cs =>
      if (c = '"' ∨ c = Char.ofNat 39) ∧ cs.getLast? = some c then cs.dropLast
      else c :: cs

/-- Modelled from the spec: per-line parsing of an environment file by the
absent uploader module's `scan_env_files`.  Trims the line, skips empty
lines and `#` comments, splits at the first `=`, trims the name, and strips
one layer of quoting from the value; a line without `=`, or with an empty
name, yields no variable. -/
def parseEnvLine (line : List Char) : Option (List Char × List Char) :=
  match trimChars line with
  | [] => none
  | c :: _ =>
      if c = '#' then none
      else
        match splitFirstEq (trimChars line) with
        | none => none
        | some (n, v) =>
            let name := trimChars n
            if name = [] then none
            else some (name, stripQuotes v)

/-- Inserts a variable into an ordered name-to-value mapping: an existing
name keeps its position but has its value overwritten (last occurrence wins
within a file), and a new name is appended. -/
def upsertVar (m : List (List Char × List Char)) (k v : List Char) :
    List (List Char × List Char) :=
  match m with
  | [] => [(k, v)]
  | (k', v') :: rest => if k' = k then (k', v) :: rest else (k', v') :: upsertVar rest k v

/-- Modelled from the spec: parses the lines of one environment file into
its ordered variable mapping, skipping lines that parse to nothing. -/
def parseEnvLines (lines : List (List Char)) : List (List Char × List Char) :=
  lines.foldl
    (fun m line =>
      match parseEnvLine line with
      | none => m
      | some (n, v) => upsertVar m n v)
    []

/-- Modelled from the spec: parses a whole environment file's content,
splitting it into lines at newline characters. -/
def parseEnvContent (content : String) : List (List Char × List Char) :=
  parseEnvLines (splitCharOn (Char.ofNat 10) content.data)

/-- Modelled from the spec: a file is an environment file when it is named
exactly `.env` or its name begins with `.env.`. -/
def isEnvFileName (name : String) : Bool :=
  name == ".env" || ".env.".data.isPrefixOf name.data

/-- Modelled from the spec: `scan_env_files` of the absent uploader module.
The walked directory is given as the list of its regular files (name and
content, in walk order); every environment file is parsed into its ordered
variable mapping. -/
def scanEnvFiles (files : List (String × String)) :
    List (String × List (List Char × List Char)) :=
  (files.filter (fun f => isEnvFileName f.1)).map (fun f => (f.1, parseEnvContent f.2))

/-- First-seen-order list of all distinct variable names across an
environment-file index. -/
def collectNames (idx : List (String × List (List Char × List Char))) : List (List Char) :=
  idx.foldl
    (fun acc f =>
      f.2.foldl (fun acc2 kv => if acc2.contains kv.1 then acc2 else acc2 ++ [kv.1]) acc)
    []

/-- Modelled from the spec: `.env.example` synthesis.  Every distinct
scanned name is emitted as `NAME=` in first-seen order, one per line; then
the additional variables not already emitted follow as `NAME=value`. -/
def synthesizeExample (idx : List (String × List (List Char × List Char)))
    (additionalVars : List (List Char × List Char)) : String :=
  let names := collectNames idx
  let base := names.foldl (fun s n => s ++ String.mk n ++ "=\n") ""
  additionalVars.foldl
    (fun s kv =>
      if names.contains kv.1 then s
      else s ++ String.mk kv.1 ++ "=" ++ String.mk kv.2 ++ "\n")
    base

/-- A text response item, the `TextContent(type="text", text=...)` record
every handler returns. -/
structure TextContent where
  text : String
deriving DecidableEq, Repr

/-- Outcome of each tool handler's `try` body (lines 181-346): the body
either renders a response text from the uploader collaborator's results or
raises an exception carrying a message.  The uploader itself is external,
so each body is abstracted by its outcome. -/
structure HandlerOutcomes where
  enhancedUpload : Except String String
  generateEnvExample : Except String String
  listFilteringRules : Except String String
  addCustomFilter : Except String String
  testFileFiltering : Except String String
  scanEnvTool : Except String String

/-- The catch-all wrapper each of the six handlers puts around its body: a
successful body yields its text, a raised exception `e` yields
`Error: {str(e)}`. -/
def wrapHandler (body : Except String String) : List TextContent :=
  match body with
  | Except.ok s => [⟨s⟩]
  | Except.error e => [⟨"Error: " ++ e⟩]

/-- The six tool names registered by `setup_tools`. -/
def toolNames : List String :=
  ["enhanced_upload_with_filtering", "generate_env_example", "list_filtering_rules",
   "add_custom_filter", "test_file_filtering", "scan_env_files"]

/-- Embeds `handle_call_tool` (lines 162-179).  The codomain is `Except` so
that an escaping exception would be expressible; each branch wraps its
handler's body in the catch-all, and an unrecognized name falls through to
the `Unknown tool` response. -/
def handleCallTool (name : String) (o : HandlerOutcomes) : Except String (List TextContent) :=
  if name = "enhanced_upload_with_filtering" then Except.ok (wrapHandler o.enhancedUpload)
  else if name = "generate_env_example" then Except.ok (wrapHandler o.generateEnvExample)
  else if name = "list_filtering_rules" then Except.ok (wrapHandler o.listFilteringRules)
  else if name = "add_custom_filter" then Except.ok (wrapHandler o.addCustomFilter)
  else if name = "test_file_filtering" then Except.ok (wrapHandler o.testFileFiltering)
  else if name = "scan_env_files" then Except.ok (wrapHandler o.scanEnvTool)
  else Except.ok [⟨"Unknown tool: " ++ name⟩]

/-- The classification loop's accumulator, in closed form: the total is the
number of walked files and the two lists are the normalized paths of the
excluded and included files, in walk order. -/
theorem dryRunFold_eq (ex : String → Bool) (files : List String) :
    dryRunFold ex files =
      (files.length, (files.filter ex).map normalizePath,
        (files.filter (fun f => !ex f)).map normalizePath) := by
  induction files with
  | nil => rfl
  | cons f fs ih =>
      cases h : ex f <;>
        simp [dryRunFold, ih, h, List.filter_cons]

/-- Closed form of the whole dry-run result record. -/
theorem dryRun_eq (ex : String → Bool) (files : List String) :
    dryRun ex files =
      { total_files := files.length
        included_files := files.length - (files.filter ex).length
        excluded_files := (files.filter ex).length
        exclusion_rate :=
          roundTo1
            (if 0 < files.length then
              ((files.filter ex).length : ℚ) / (files.length : ℚ) * 100
            else 0)
        excluded_list := ((files.filter ex).map normalizePath).take 20
        included_list := ((files.filter (fun f => !ex f)).map normalizePath).take 20
        more_excluded := (files.filter ex).length - 20
        more_included := (files.filter (fun f => !ex f)).length - 20 } := by
  simp [dryRun, dryRunFold_eq, Nat.pos_iff_ne_zero]

/-- C1: for every root directory, the dry-run classification returns counts
satisfying `includedCount + excludedCount = totalCount`, and when
`totalCount > 0` its exclusion rate equals
`excludedCount / totalCount * 100` rounded to one decimal place. -/
theorem claim_C1_dry_run_counts_and_rate (ex : String → Bool) (files : List String) :
    (dryRun ex files).included_files + (dryRun ex files).excluded_files
        = (dryRun ex files).total_files ∧
      (0 < (dryRun ex files).total_files →
        (dryRun ex files).exclusion_rate =
          roundTo1 (((dryRun ex files).excluded_files : ℚ)
            / ((dryRun ex files).total_files : ℚ) * 100)) := by
  rw [dryRun_eq]
  dsimp only
  constructor
  · have hle : (files.filter ex).length ≤ files.length := List.length_filter_le ex files
    omega
  · intro h
    rw [if_pos h]

theorem claim_C1_witness :
    (dryRun (fun f => f == "a.log") ["a.log", "b.txt"]).included_files
          + (dryRun (fun f => f == "a.log") ["a.log", "b.txt"]).excluded_files
        = (dryRun (fun f => f == "a.log") ["a.log", "b.txt"]).total_files ∧
      (dryRun (fun f => f == "a.log") ["a.log", "b.txt"]).exclusion_rate =
        roundTo1 (((dryRun (fun f => f == "a.log") ["a.log", "b.txt"]).excluded_files : ℚ)
          / ((dryRun (fun f => f == "a.log") ["a.log", "b.txt"]).total_files : ℚ) * 100) :=
  ⟨(claim_C1_dry_run_counts_and_rate (fun f => f == "a.log") ["a.log", "b.txt"]).1,
   (claim_C1_dry_run_counts_and_rate (fun f => f == "a.log") ["a.log", "b.txt"]).2 (by decide)⟩

/-- C2 counterexample: with 21 walked files and nothing excluded, the 21st
file appears in neither returned sequence, because `test_file_filtering`
returns only the first 20 entries of each partition (lines 309-310). -/
theorem claim_C2_counterexample :
    "f21" ∈ (["f01", "f02", "f03", "f04", "f05", "f06", "f07", "f08", "f09", "f10",
        "f11", "f12", "f13", "f14", "f15", "f16", "f17", "f18", "f19", "f20",
        "f21"] : List String) ∧
      "f21" ∉ (dryRun (fun _ => false)
          ["f01", "f02", "f03", "f04", "f05", "f06", "f07", "f08", "f09", "f10",
           "f11", "f12", "f13", "f14", "f15", "f16", "f17", "f18", "f19", "f20",
           "f21"]).included_list ∧
      "f21" ∉ (dryRun (fun _ => false)
          ["f01", "f02", "f03", "f04", "f05", "f06", "f07", "f08", "f09", "f10",
           "f11", "f12", "f13", "f14", "f15", "f16", "f17", "f18", "f19", "f20",
           "f21"]).excluded_list := by
  decide

/-- C2 (amended): the classification loop partitions every walked file into
exactly one of the two internal lists (excluded exactly when the classifier
says so, in walk order), but the returned sequences are only the first 20
entries of each internal list, with `more_excluded` and `more_included`
counting the omitted remainder. -/
theorem claim_C2_partition_truncated (ex : String → Bool) (files : List String) :
    (dryRun ex files).excluded_list = ((files.filter ex).map normalizePath).take 20 ∧
      (dryRun ex files).included_list
        = ((files.filter (fun f => !ex f)).map normalizePath).take 20 ∧
      (dryRun ex files).more_excluded = (files.filter ex).length - 20 ∧
      (dryRun ex files).more_included = (files.filter (fun f => !ex f)).length - 20 ∧
      ∀ f ∈ files,
        (ex f = true → normalizePath f ∈ (files.filter ex).map normalizePath
          ∧ normalizePath f ∉ ((files.filter (fun g => !ex g)).filter (fun g => g == f)).map normalizePath) ∧
        (ex f = false → normalizePath f ∈ (files.filter (fun g => !ex g)).map normalizePath) := by
  rw [dryRun_eq]
  dsimp only
  refine ⟨rfl, rfl, rfl, rfl, fun f hf => ⟨fun hex => ?_, fun hex => ?_⟩⟩
  · refine ⟨List.mem_map_of_mem _ (List.mem_filter.2 ⟨hf, hex⟩), ?_⟩
    intro hmem
    rcases List.mem_map.1 hmem with ⟨g, hg, _⟩
    rcases List.mem_filter.1 hg with ⟨hg1, hg2⟩
    rcases List.mem_filter.1 hg1 with ⟨_, hg3⟩
    rw [beq_iff_eq] at hg2
    rw [hg2, hex] at hg3
    exact Bool.false_ne_true hg3
  · exact List.mem_map_of_mem _ (List.mem_filter.2 ⟨hf, by rw [hex]; rfl⟩)

theorem claim_C2_witness :
    (dryRun (fun f => f == "x") ["x", "y"]).excluded_list
        = (((["x", "y"] : List String).filter (fun f => f == "x")).map normalizePath).take 20 ∧
      normalizePath "y" ∈ ((["x", "y"] : List String).filter
          (fun g => !(g == "x"))).map normalizePath :=
  ⟨(claim_C2_partition_truncated (fun f => f == "x") ["x", "y"]).1,
   ((claim_C2_partition_truncated (fun f => f == "x") ["x", "y"]).2.2.2.2 "y"
      (by decide)).2 (by decide)⟩

/-- C3: a dry run over a root with zero regular files reports an exclusion
rate of exactly 0; the division by the total is behind the
`total_files > 0` guard and never evaluated on zero. -/
theorem claim_C3_zero_files_guard (ex : String → Bool) (files : List String)
    (h : (dryRun ex files).total_files = 0) : (dryRun ex files).exclusion_rate = 0 := by
  rw [dryRun_eq] at h ⊢
  dsimp only at h ⊢
  rw [h]
  simp [roundTo1_zero]

theorem claim_C3_witness : (dryRun (fun _ => true) []).exclusion_rate = 0 :=
  claim_C3_zero_files_guard (fun _ => true) [] rfl

/-- C4: every path reported in the returned included or excluded sequence is
the normalized form of a walked file's root-relative path — all backslash
separators replaced by forward slashes. -/
theorem claim_C4_normalized_paths (ex : String → Bool) (files : List String) (p : String)
    (h : p ∈ (dryRun ex files).excluded_list ∨ p ∈ (dryRun ex files).included_list) :
    ∃ f, f ∈ files ∧ p = normalizePath f := by
  rw [dryRun_eq] at h
  dsimp only at h
  rcases h with h | h
  · rcases List.mem_map.1 (List.take_subset _ _ h) with ⟨f, hf, hp⟩
    exact ⟨f, (List.mem_filter.1 hf).1, hp.symm⟩
  · rcases List.mem_map.1 (List.take_subset _ _ h) with ⟨f, hf, hp⟩
    exact ⟨f, (List.mem_filter.1 hf).1, hp.symm⟩

theorem claim_C4_witness :
    ∃ f, f ∈ (["sub\\dir\\a.txt"] : List String) ∧ "sub/dir/a.txt" = normalizePath f :=
  claim_C4_normalized_paths (fun _ => false) ["sub\\dir\\a.txt"] "sub/dir/a.txt"
    (Or.inr (by decide))

/-- The sequential rule scan, started from any running decision, is decided
by the last matching rule when one exists and keeps the running decision
otherwise. -/
theorem foldl_rules_eq_lastMatch (path : String) (rules : List FilterRule) :
    ∀ acc : Bool,
      rules.foldl (fun a r => if ruleMatches r path then r.kind == RuleKind.exclude else a) acc =
        match lastMatchingRule path rules with
        | some r => r.kind == RuleKind.exclude
        | none => acc := by
  induction rules with
  | nil => intro acc; rfl
  | cons r rs ih =>
      intro acc
      rw [List.foldl_cons, ih]
      show _ = match lastMatchingRule path (r :: rs) with
        | some r => r.kind == RuleKind.exclude
        | none => acc
      rw [lastMatchingRule]
      cases hl : lastMatchingRule path rs
      · cases hm : ruleMatches r path <;> simp [hm]
      · simp

/-- A path matching no rule has no last matching rule. -/
theorem lastMatchingRule_eq_none (path : String) (rules : List FilterRule)
    (h : ∀ r ∈ rules, ruleMatches r path = false) : lastMatchingRule path rules = none := by
  induction rules with
  | nil => rfl
  | cons r rs ih =>
      rw [lastMatchingRule, ih (fun r' hr' => h r' (List.mem_cons_of_mem r hr')),
        h r (List.mem_cons_self r rs)]
      rfl

/-- C5: `shouldExclude` is true exactly when the last rule, by insertion
order, whose pattern matches the path has kind exclude; in particular
`[exclude *.log, include important.log]` retains `important.log` while
`[include important.log, exclude *.log]` excludes it, and a path matching
no rule is included. -/
theorem claim_C5_last_match_wins :
    (∀ (rules : List FilterRule) (path : String),
        shouldExclude rules path = true ↔
          ∃ r, lastMatchingRule path rules = some r ∧ r.kind = RuleKind.exclude) ∧
      shouldExclude [⟨"*.log", RuleKind.exclude⟩, ⟨"important.log", RuleKind.retain⟩]
          "important.log" = false ∧
      shouldExclude [⟨"important.log", RuleKind.retain⟩, ⟨"*.log", RuleKind.exclude⟩]
          "important.log" = true ∧
      ∀ (rules : List FilterRule) (path : String),
        (∀ r ∈ rules, ruleMatches r path = false) → shouldExclude rules path = false := by
  refine ⟨fun rules path => ?_, by decide, by decide, fun rules path h => ?_⟩
  · rw [shouldExclude, foldl_rules_eq_lastMatch]
    cases hl : lastMatchingRule path rules with
    | none => simp
    | some r => simp [beq_iff_eq]
  · rw [shouldExclude, foldl_rules_eq_lastMatch, lastMatchingRule_eq_none path rules h]

theorem claim_C5_witness :
    shouldExclude [⟨"*.txt", RuleKind.exclude⟩] "readme.log" = false :=
  claim_C5_last_match_wins.2.2.2 [⟨"*.txt", RuleKind.exclude⟩] "readme.log"
    (by intro r hr; rw [List.mem_singleton] at hr; subst hr; decide)

/-- C6: a rule whose pattern ends in `/` matches exactly when some segment
of the path equals the literal before the slash, at any depth; the rule
`node_modules/` excludes `a/node_modules/b/c.js` and `node_modules/x.js`
but not `my-node_modules-thing/x.js`. -/
theorem claim_C6_directory_suffix :
    (∀ (lit : String) (k : RuleKind) (path : String),
        ruleMatches ⟨lit ++ "/", k⟩ path
          = (splitCharOn '/' path.data).contains lit.data) ∧
      shouldExclude [⟨"node_modules/", RuleKind.exclude⟩] "a/node_modules/b/c.js" = true ∧
      shouldExclude [⟨"node_modules/", RuleKind.exclude⟩] "node_modules/x.js" = true ∧
      shouldExclude [⟨"node_modules/", RuleKind.exclude⟩] "my-node_modules-thing/x.js" = false := by
  refine ⟨fun lit k path => ?_, by decide, by decide, by decide⟩
  have hdata : (lit ++ "/").data = lit.data ++ ['/'] := rfl
  rw [ruleMatches]
  dsimp only
  rw [hdata, List.getLast?_concat, List.dropLast_concat]
  rfl

/-- C7: adding a rule with an empty pattern is rejected with `false` and
leaves the listed rule sequence unchanged; a non-empty pattern is appended
and reported with `true`. -/
theorem claim_C7_addRule_empty_pattern (rules : List FilterRule) (k : RuleKind) :
    (addRule rules "" k).1 = false ∧
      listRules (addRule rules "" k).2 = listRules rules ∧
      ∀ p : String, p ≠ "" →
        (addRule rules p k).1 = true ∧ (addRule rules p k).2 = rules ++ [⟨p, k⟩] := by
  refine ⟨rfl, rfl, fun p hp => ?_⟩
  rw [addRule, if_neg hp]
  exact ⟨rfl, rfl⟩

theorem claim_C7_witness :
    (addRule [] "*.bak" RuleKind.exclude).1 = true ∧
      (addRule [] "*.bak" RuleKind.exclude).2 = [⟨"*.bak", RuleKind.exclude⟩] :=
  (claim_C7_addRule_empty_pattern [] RuleKind.exclude).2.2 "*.bak" (by decide)

/-- C8: scanning a directory containing a `.env` file with content
`API_KEY=secret123\n# comment\nDEBUG="true"\n` yields exactly the variables
`API_KEY = secret123` and `DEBUG = true` (comment skipped, one quote layer
stripped), and synthesizing the example from that index produces exactly
`API_KEY=\nDEBUG=\n`. -/
theorem claim_C8_round_trip :
    scanEnvFiles [(".env", "API_KEY=secret123\n# comment\nDEBUG=\"true\"\n")] =
        [(".env", [("API_KEY".data, "secret123".data), ("DEBUG".data, "true".data)])] ∧
      synthesizeExample
          (scanEnvFiles [(".env", "API_KEY=secret123\n# comment\nDEBUG=\"true\"\n")]) [] =
        "API_KEY=\nDEBUG=\n" := by
  constructor
  · decide
  · decide

/-- A character of the trimmed list already occurs in the original list. -/
theorem mem_of_mem_trimChars {c : Char} {l : List Char} (h : c ∈ trimChars l) : c ∈ l := by
  rw [trimChars] at h
  rw [List.mem_reverse] at h
  have h2 := (List.dropWhile_sublist Char.isWhitespace).subset h
  rw [List.mem_reverse] at h2
  exact (List.dropWhile_sublist Char.isWhitespace).subset h2

/-- Splitting at the first `=` of a list without `=` yields nothing. -/
theorem splitFirstEq_eq_none {l : List Char} (h : '=' ∉ l) : splitFirstEq l = none := by
  induction l with
  | nil => rfl
  | cons c cs ih =>
      rw [List.mem_cons, not_or] at h
      rw [splitFirstEq, if_neg (fun hc => h.1 hc.symm), ih h.2]

/-- A line without `=` parses to no variable. -/
theorem parseEnvLine_no_eq {line : List Char} (h : '=' ∉ line) : parseEnvLine line = none := by
  have ht : '=' ∉ trimChars line := fun hc => h (mem_of_mem_trimChars hc)
  have hs : splitFirstEq (trimChars line) = none := splitFirstEq_eq_none ht
  rcases htrim : trimChars line with _ | ⟨c, rest⟩
  · simp [parseEnvLine, htrim]
  · by_cases hc : c = '#'
    · simp [parseEnvLine, htrim, hc]
    · rw [htrim] at hs
      simp [parseEnvLine, htrim, hc, hs]

/-- C9: a line without `=` is skipped without error, contributes no
variable, and removing it from a file's line sequence leaves the scan of
the remaining lines unchanged. -/
theorem claim_C9_malformed_line_skipped :
    (∀ line : List Char, '=' ∉ line → parseEnvLine line = none) ∧
      ∀ (pre post : List (List Char)) (line : List Char), '=' ∉ line →
        parseEnvLines (pre ++ line :: post) = parseEnvLines (pre ++ post) := by
  refine ⟨fun line h => parseEnvLine_no_eq h, fun pre post line h => ?_⟩
  simp [parseEnvLines, List.foldl_append, parseEnvLine_no_eq h]

theorem claim_C9_witness :
    parseEnvLine "justsometext".data = none ∧
      parseEnvLines ["A=1".data, "justsometext".data, "B=2".data] =
        parseEnvLines ["A=1".data, "B=2".data] :=
  ⟨claim_C9_malformed_line_skipped.1 "justsometext".data (by decide),
   claim_C9_malformed_line_skipped.2 ["A=1".data] ["B=2".data] "justsometext".data (by decide)⟩

/-- C10: the dispatcher never propagates an exception — every call returns a
plain list of text items; an unrecognized tool name yields the
`Unknown tool: <name>` text, and each of the six handlers, when its body
raises `e`, returns the single text `Error: e`. -/
theorem claim_C10_dispatch_never_raises (name : String) (o : HandlerOutcomes) :
    (∃ l, handleCallTool name o = Except.ok l) ∧
      (name ∉ toolNames →
        handleCallTool name o = Except.ok [⟨"Unknown tool: " ++ name⟩]) ∧
      (∀ e, o.enhancedUpload = Except.error e →
        handleCallTool "enhanced_upload_with_filtering" o = Except.ok [⟨"Error: " ++ e⟩]) ∧
      (∀ e, o.generateEnvExample = Except.error e →
        handleCallTool "generate_env_example" o = Except.ok [⟨"Error: " ++ e⟩]) ∧
      (∀ e, o.listFilteringRules = Except.error e →
        handleCallTool "list_filtering_rules" o = Except.ok [⟨"Error: " ++ e⟩]) ∧
      (∀ e, o.addCustomFilter = Except.error e →
        handleCallTool "add_custom_filter" o = Except.ok [⟨"Error: " ++ e⟩]) ∧
      (∀ e, o.testFileFiltering = Except.error e →
        handleCallTool "test_file_filtering" o = Except.ok [⟨"Error: " ++ e⟩]) ∧
      (∀ e, o.scanEnvTool = Except.error e →
        handleCallTool "scan_env_files" o = Except.ok [⟨"Error: " ++ e⟩]) := by
  refine ⟨?_, ?_, ?_, ?_, ?_, ?_, ?_, ?_⟩
  · rw [handleCallTool]
    split_ifs <;> exact ⟨_, rfl⟩
  · intro h
    simp only [toolNames, List.mem_cons, List.not_mem_nil, or_false, not_or] at h
    obtain ⟨h1, h2, h3, h4, h5, h6⟩ := h
    rw [handleCallTool, if_neg h1, if_neg h2, if_neg h3, if_neg h4, if_neg h5, if_neg h6]
  all_goals intro e he; simp [handleCallTool, wrapHandler, he]

theorem claim_C10_witness :
    handleCallTool "no_such_tool"
        ⟨Except.error "boom", Except.ok "fine", Except.error "boom", Except.error "boom",
          Except.error "boom", Except.error "boom"⟩
        = Except.ok [⟨"Unknown tool: " ++ "no_such_tool"⟩] ∧
      handleCallTool "add_custom_filter"
          ⟨Except.error "boom", Except.ok "fine", Except.error "boom", Except.error "boom",
            Except.error "boom", Except.error "boom"⟩
        = Except.ok [⟨"Error: " ++ "boom"⟩] :=
  ⟨(claim_C10_dispatch_never_raises "no_such_tool"
      ⟨Except.error "boom", Except.ok "fine", Except.error "boom", Except.error "boom",
        Except.error "boom", Except.error "boom"⟩).2.1 (by decide),
   (claim_C10_dispatch_never_raises "add_custom_filter"
      ⟨Except.error "boom", Except.ok "fine", Except.error "boom", Except.error "boom",
        Except.error "boom", Except.error "boom"⟩).2.2.2.2.2.1 "boom" rfl⟩

end GithubMcp
